import Mathlib

/-
Shallow embedding of the lead-qualification engine
(src/lead_engine: scorer.py, signals.py, enricher.py).

Python dict-based configuration is embedded as Lean structures; a field read
with `dict.get(key, default)` becomes an `Option` field read with `getD`.
Machine integers are `Int` (Python ints are unbounded, so no wrap-around is
modelled).  Fallible code (the `int()` call inside `_evaluate_rule`, which can
raise `ValueError`) is embedded in `Except String`.  The external collaborators
of Pass 2 (web search + LLM extraction, which are specified to never raise and
to always deliver a complete signal record) are abstracted as a total oracle
function `ScoredRec → Signals`.
-/

namespace LeadEngine

/-! ### Python string primitives -/

/-- `isPrefixB n h` : the char list `n` is a prefix of `h`. -/
def isPrefixB : List Char → List Char → Bool
  | [], _ => true
  | _ :: _, [] => false
  | a :: as, b :: bs => a == b && isPrefixB as bs

/-- `containsB n h` : the char list `n` occurs contiguously inside `h`
(Python's `n in h` on strings). -/
def containsB (needle : List Char) : List Char → Bool
  | [] => isPrefixB needle []
  | c :: rest => isPrefixB needle (c :: rest) || containsB needle rest

/-- Python's substring test `needle in hay`. -/
def strIn (needle hay : String) : Bool := containsB needle.data hay.data

/-- ASCII whitespace, the characters stripped by Python's `str.strip()`. -/
def isSpaceChar (c : Char) : Bool :=
  c == ' ' || c == '\t' || c == '\n' || c == '\r' || c == '\x0b' || c == '\x0c'

/-- Python's `str.strip()` (ASCII whitespace). -/
def pyStrip (s : String) : String :=
  ⟨((s.data.dropWhile isSpaceChar).reverse.dropWhile isSpaceChar).reverse⟩

/-- ASCII decimal digit (Python's `\d` on the ASCII plane). -/
def isDigitChar (c : Char) : Bool := '0' ≤ c && c ≤ '9'

/-- Value of a list of decimal digits. -/
def digitsToNat (l : List Char) : Nat :=
  l.foldl (fun n c => 10 * n + (c.toNat - 48)) 0

/-- Python's `int(s)` on an already-stripped string: optional sign followed by
at least one digit; anything else raises, which we model as `none`.  (Python's
underscore digit grouping and non-ASCII digits are not modelled; the
configuration conditions in play are ASCII.) -/
def pyInt (s : String) : Option Int :=
  match s.data with
  | '+' :: rest =>
      if !rest.isEmpty && rest.all isDigitChar then some (digitsToNat rest : Int) else none
  | '-' :: rest =>
      if !rest.isEmpty && rest.all isDigitChar then some (-(digitsToNat rest : Int)) else none
  | l =>
      if !l.isEmpty && l.all isDigitChar then some (digitsToNat l : Int) else none

/-- Worker for `pySplit`, fuelled to make the recursion structural.  The fuel
is at least the length of the remaining text plus one, and the separator is
nonempty at every call site, so the fuel never runs out. -/
def splitAux (sep : List Char) : Nat → List Char → List Char → List (List Char)
  | _, acc, [] => [acc.reverse]
  | 0, acc, l => [acc.reverse ++ l]
  | fuel + 1, acc, c :: rest =>
      if isPrefixB sep (c :: rest) then
        acc.reverse :: splitAux sep fuel [] ((c :: rest).drop sep.length)
      else
        splitAux sep fuel (c :: acc) rest

/-- Python's `s.split(sep)` for a nonempty separator. -/
def pySplit (sep : String) (s : String) : List String :=
  (splitAux sep.data (s.data.length + 1) [] s.data).map (fun l => ⟨l⟩)

/-- Python's `sep.join(parts)`. -/
def joinSep (sep : String) : List String → String
  | [] => ""
  | x :: xs => xs.foldl (fun acc y => acc ++ sep ++ y) x

/-- Python's `str.lower()` (ASCII case folding). -/
def pyLower (s : String) : String := ⟨s.data.map Char.toLower⟩

/-! ### Configuration data model (the YAML config, after `load_config`) -/

/-- One entry of `config["size_scoring"]["brackets"]`. -/
structure Bracket where
  max : Int
  points : Int
deriving DecidableEq

/-- `config["size_scoring"]`.  `min_employees` is read with
`.get("min_employees", 0)`, hence optional. -/
structure SizeScoring where
  min_employees : Option Int
  brackets : List Bracket
deriving DecidableEq

/-- One industry tier dict: `industries` read with `.get("industries", [])`,
`points` read with `.get("points")` (absent or null gives `none`). -/
structure IndustryTier where
  industries : List String
  points : Option Int
deriving DecidableEq

/-- `config["industry_tiers"]`: the four looked-up tier keys (each read with
`.get(name, \x7b\x7d)`), plus `default_tier` / `default_points` read with
defaults `"C"` / `10`. -/
structure IndustryTiersCfg where
  A : Option IndustryTier
  B : Option IndustryTier
  C : Option IndustryTier
  OUT : Option IndustryTier
  default_tier : Option String
  default_points : Option Int
deriving DecidableEq

/-- One entry of `config["tiers"]`. -/
structure TierCfg where
  name : String
  min_score : Int
deriving DecidableEq

/-- One entry of `config["keyword_signals"]["categories"]`. -/
structure Category where
  name : String
  terms : List String
  points : Int
deriving DecidableEq

/-- One entry of `config["conditional_signals"]`; the two condition fields are
read with `.get(key, "")`. -/
structure CondSignal where
  name : String
  terms : List String
  points : Int
  industry_contains : Option String
  exclude_if_category_matched : Option String
deriving DecidableEq

/-- One entry of `config["flags"]`. -/
structure FlagRule where
  name : String
  terms : List String
  penalty : Int
  industry_contains : Option String
deriving DecidableEq

/-- `config["keyword_signals"]`: `cap` read with `.get("cap", 25)`. -/
structure KeywordSignals where
  cap : Option Int
  categories : List Category
deriving DecidableEq

/-- One entry of `config["enrichment"]["bonus_rules"]`. -/
structure BonusRule where
  condition : String
  points : Int
  signal : String
deriving DecidableEq

/-- `config["enrichment"]`: `bonus_cap` read with `.get("bonus_cap", 20)`,
`top_n` with `.get("top_n", 50)`. -/
structure EnrichmentCfg where
  bonus_cap : Option Int
  top_n : Option Nat
  bonus_rules : List BonusRule
deriving DecidableEq

/-- The validated configuration document (sections used by the engine;
the `input` / `output` spreadsheet sections feed only the workbook I/O,
which is outside the scoring core). -/
structure Config where
  size_scoring : SizeScoring
  industry_tiers : IndustryTiersCfg
  keyword_signals : KeywordSignals
  conditional_signals : List CondSignal
  flags : List FlagRule
  tiers : List TierCfg
  enrichment : EnrichmentCfg
deriving DecidableEq

/-! ### Company records -/

/-- A spreadsheet cell holding an employee count.  Python's
`isinstance(value, (int, float))` branch applies `int(value)`, which truncates
toward zero; a numeric cell is therefore embedded as its truncated integer. -/
inductive CellValue where
  | num (n : Int)
  | str (s : String)
  | blank
deriving DecidableEq

/-- The fields of a company record that the scoring core reads.  `name` is
non-null because `read_companies` drops rows without a name; the remaining
fields are nullable cells. -/
structure Company where
  name : String
  industry : Option String
  employees : CellValue
  description : Option String
  keywords : Option String
deriving DecidableEq

/-! ### Pass-1 scoring (scorer.py) -/

/-- `parse_employees`: numeric cells pass through, string cells keep only
their digits (`re.sub(r"[^\d]", "", value)`) and parse them, yielding `none`
when no digits remain; other cells yield `none`. -/
def parse_employees : CellValue → Option Int
  | .num n => some n
  | .str s =>
      let ds := s.data.filter isDigitChar
      if ds.isEmpty then none else some (digitsToNat ds : Int)
  | .blank => none

/-- The bracket loop of `score_size`. -/
def sizeLoop (employees : Int) : List Bracket → Option Int
  | [] => none
  | b :: bs => if employees ≤ b.max then some b.points else sizeLoop employees bs

/-- `score_size`: disqualify (`none`) when the count is absent or below
`min_employees`; otherwise the first bracket whose `max` is ≥ the count yields
its points, and falling off the end of the bracket list disqualifies. -/
def score_size (employees : Option Int) (config : Config) : Option Int :=
  let min_emp := config.size_scoring.min_employees.getD 0
  match employees with
  | none => none
  | some e => if e < min_emp then none else sizeLoop e config.size_scoring.brackets

/-- The `\x7b\x7d` default of `tiers.get(tier_name, \x7b\x7d)`. -/
def emptyIndustryTier : IndustryTier := { industries := [], points := none }

/-- The fixed `["A", "B", "C", "OUT"]` lookup order of `score_industry`,
with each tier read via `tiers.get(tier_name, \x7b\x7d)`. -/
def orderedIndustryTiers (config : Config) : List (String × IndustryTier) :=
  [("A", config.industry_tiers.A.getD emptyIndustryTier),
   ("B", config.industry_tiers.B.getD emptyIndustryTier),
   ("C", config.industry_tiers.C.getD emptyIndustryTier),
   ("OUT", config.industry_tiers.OUT.getD emptyIndustryTier)]

/-- The tier loop of `score_industry`; falling through returns the configured
default tier and points. -/
def indLoop (industry : String) (config : Config) :
    List (String × IndustryTier) → String × Option Int
  | [] =>
      (config.industry_tiers.default_tier.getD "C",
       some (config.industry_tiers.default_points.getD 10))
  | (tname, tier) :: rest =>
      if tier.industries.contains industry then (tname, tier.points)
      else indLoop industry config rest

/-- `score_industry`: first of the tiers `A`, `B`, `C`, `OUT` (in that order)
whose industry list contains the literal label wins, returning that tier's
letter and (possibly absent) points; otherwise the configured default. -/
def score_industry (industry : String) (config : Config) : String × Option Int :=
  indLoop industry config (orderedIndustryTiers config)

/-- The threshold loop of `assign_tier`. -/
def tierLoop (score : Int) : List TierCfg → String
  | [] => "Disqualified"
  | t :: ts => if t.min_score ≤ score then t.name else tierLoop score ts

/-- `assign_tier`: first configured tier whose `min_score` is ≤ the score,
else `"Disqualified"`. -/
def assign_tier (score : Int) (config : Config) : String :=
  tierLoop score config.tiers

/-! ### Keyword signal scanner (signals.py) -/

/-- `hits = [t for t in terms if t in text]; if hits:` — at least one term of
the list occurs in the text. -/
def termHit (text : String) (terms : List String) : Bool :=
  terms.any (fun t => strIn t text)

/-- One step of the category pass of `scan_keywords`: a matching category adds
its points once and records its name.  The accumulator is
(running total, matched names). -/
def catStep (text : String) (acc : Int × List String) (c : Category) :
    Int × List String :=
  if termHit text c.terms then (acc.1 + c.points, acc.2 ++ [c.name]) else acc

/-- One step of the conditional-signal pass: the signal applies only when its
`industry_contains` string is non-empty, the company's industry is non-empty,
and the former occurs in the latter; it can further be suppressed when its
`exclude_if_category_matched` name has already been matched. -/
def condStep (text industry : String) (acc : Int × List String) (s : CondSignal) :
    Int × List String :=
  let industry_match := s.industry_contains.getD ""
  if !industry_match.isEmpty && !industry.isEmpty && strIn industry_match industry then
    let exclude_cat := s.exclude_if_category_matched.getD ""
    if !exclude_cat.isEmpty && acc.2.contains exclude_cat then acc
    else if termHit text s.terms then (acc.1 + s.points, acc.2 ++ [s.name]) else acc
  else acc

/-- One step of the flag pass: an applicable matching flag subtracts its
penalty from the running total and records its name in the flag list.  The
accumulator is (running total, matched flag names). -/
def flagStep (text industry : String) (acc : Int × List String) (f : FlagRule) :
    Int × List String :=
  let industry_match := f.industry_contains.getD ""
  if !industry_match.isEmpty && !industry.isEmpty && strIn industry_match industry then
    if termHit text f.terms then (acc.1 - f.penalty, acc.2 ++ [f.name]) else acc
  else acc

/-- `scan_keywords`: the three passes of signals.py, then the total is capped
at `cap` (`total = min(total, cap)`).  Returns
(capped total, matched category and conditional names, matched flag names). -/
def scan_keywords (text industry : String) (config : Config) :
    Int × List String × List String :=
  let cap := config.keyword_signals.cap.getD 25
  let catAcc := config.keyword_signals.categories.foldl (catStep text) (0, [])
  let condAcc := config.conditional_signals.foldl (condStep text industry) catAcc
  let flagAcc := config.flags.foldl (flagStep text industry) (condAcc.1, [])
  (min flagAcc.1 cap, condAcc.2, flagAcc.2)

/-! ### Pass-1 engine (`score_companies`) -/

/-- A Pass-1 scored record, restricted to the fields the engine computes
(the `**c` spread of the raw company record is kept in `company`). -/
structure ScoredRec where
  company : Company
  employees_num : Option Int
  size_score : Int
  industry_tier : String
  industry_score : Int
  keyword_score : Int
  keyword_signals : List String
  flags : List String
  total_score : Int
  tier : String
  disqualify_reason : String
deriving DecidableEq

/-- The interpolation `f"\x7bemployees or 'unknown'\x7d"`: `None` and `0` are
falsy in Python, so both print as `unknown`. -/
def orUnknown : Option Int → String
  | some n => if n == 0 then "unknown" else toString n
  | none => "unknown"

/-- The size disqualification reason string of `score_companies`. -/
def sizeReason (employees : Option Int) : String :=
  "Too small (" ++ (orUnknown employees ++ " employees)")

/-- The interpolation `f"\x7bc['industry']\x7d"` for a nullable cell: Python
prints `None` for a null. -/
def strOrNone : Option String → String
  | some s => s
  | none => "None"

/-- The industry disqualification reason string of `score_companies`. -/
def industryReason (industry : Option String) : String :=
  "Industry excluded (" ++ (strOrNone industry ++ ")")

/-- The per-company body of the `score_companies` loop: parse the employee
count, score size and industry; if either disqualifies, emit a zeroed record
with the joined reasons and tier `"Disqualified"`; otherwise scan keywords on
the lowercased name/description/keywords text, total the three scores and
assign a tier. -/
def scoreOne (config : Config) (c : Company) : ScoredRec :=
  let employees := parse_employees c.employees
  let size_pts := score_size employees config
  let ir := score_industry (c.industry.getD "") config
  match size_pts, ir.2 with
  | some sp, some ip =>
      let text := pyLower (c.name ++ " " ++ (c.description.getD "" ++ " " ++ c.keywords.getD ""))
      let scanRes := scan_keywords text (c.industry.getD "") config
      let total := sp + ip + scanRes.1
      { company := c, employees_num := employees, size_score := sp,
        industry_tier := ir.1, industry_score := ip, keyword_score := scanRes.1,
        keyword_signals := scanRes.2.1, flags := scanRes.2.2, total_score := total,
        tier := assign_tier total config, disqualify_reason := "" }
  | sres, ires =>
      let reasons :=
        (if sres.isNone then [sizeReason employees] else []) ++
        (if ires.isNone then [industryReason c.industry] else [])
      { company := c, employees_num := employees, size_score := 0,
        industry_tier := ir.1, industry_score := 0, keyword_score := 0,
        keyword_signals := [], flags := [], total_score := 0,
        tier := "Disqualified", disqualify_reason := joinSep "; " reasons }

/-- The ordering used by `results.sort(key=lambda x: x["total_score"],
reverse=True)`: `a` may come no later than `b` iff `b`'s total is ≤ `a`'s.
Python's sort is stable, which `List.insertionSort` with this relation
reproduces exactly. -/
def scoreDescOrder (a b : ScoredRec) : Prop := b.total_score ≤ a.total_score

instance : DecidableRel scoreDescOrder := fun _ _ => Int.decLe _ _

instance : IsTotal ScoredRec scoreDescOrder :=
  ⟨fun a b => le_total b.total_score a.total_score⟩

instance : IsTrans ScoredRec scoreDescOrder :=
  ⟨fun _ _ _ hab hbc => le_trans hbc hab⟩

/-- `score_companies` (without the workbook I/O): score every company in input
order, then stably sort all records by `total_score` descending. -/
def score_companies (companies : List Company) (config : Config) : List ScoredRec :=
  List.insertionSort scoreDescOrder (companies.map (scoreOne config))

/-! ### Pass-2 enrichment (enricher.py)

`search_company` and `extract_signals` are the external collaborators: they
never raise (failures become an empty result list resp. the default signal
record) and `extract_signals` backfills every missing field, so their
composition is a total function from a company to a signal record, which we
abstract as an oracle. -/

/-- An enrichment signal record, after `extract_signals` normalized it with
`setdefault`.  `employee_sentiment` is kept optional because
`signals.get("employee_sentiment")` can still meet a null value, which
compares unequal to every expected string. -/
structure Signals where
  num_locations : Option Int
  employee_sentiment : Option String
  hr_initiatives : Bool
  decentralized : Bool
  competitor_tools : List String
  summary : String
deriving DecidableEq

/-- `_evaluate_rule`: dispatch on which recognized fragment occurs in the
condition string.  The `num_locations` branch calls Python's `int()` on the
text after the first `>=`, which raises `ValueError` when that text is not an
integer literal — embedded as `Except.error`.  Every other branch, including
the fail-closed fallback, returns a boolean. -/
def evaluate_rule (condition : String) (signals : Signals) : Except String Bool :=
  if strIn "num_locations >= " condition then
    match pyInt (pyStrip ((pySplit ">=" condition).getD 1 "")) with
    | some threshold => .ok (decide (signals.num_locations.getD 0 ≥ threshold))
    | none => .error "ValueError: invalid literal for int"
  else if strIn "employee_sentiment == " condition then
    let expected := pyStrip ((pySplit "==" condition).getD 1 "")
    .ok (decide (signals.employee_sentiment = some expected))
  else if strIn "hr_initiatives == true" condition then
    .ok signals.hr_initiatives
  else if strIn "decentralized == true" condition then
    .ok signals.decentralized
  else if strIn "competitor_tools is empty" condition then
    .ok (decide (signals.competitor_tools.length = 0))
  else if strIn "competitor_tools is not empty" condition then
    .ok (decide (signals.competitor_tools.length > 0))
  else
    .ok false

/-- The bonus-rule loop of `score_enrichment`; an exception raised by
`_evaluate_rule` aborts the loop (and the whole run). -/
def ruleFold (signals : Signals) :
    List BonusRule → Int × List String → Except String (Int × List String)
  | [], acc => .ok acc
  | rule :: rest, acc =>
      match evaluate_rule rule.condition signals with
      | .error e => .error e
      | .ok hit =>
          ruleFold signals rest
            (if hit then (acc.1 + rule.points, acc.2 ++ [rule.signal]) else acc)

/-- `score_enrichment`: sum the points of the matching bonus rules, recording
their signal names, then clamp with `max(min(total, bonus_cap), -bonus_cap)`. -/
def score_enrichment (signals : Signals) (config : Config) :
    Except String (Int × List String) :=
  let cap := config.enrichment.bonus_cap.getD 20
  match ruleFold signals config.enrichment.bonus_rules (0, []) with
  | .error e => .error e
  | .ok acc => .ok (max (min acc.1 cap) (-cap), acc.2)

/-- A Pass-2 record: the Pass-1 record extended with the enrichment fields
(the raw-signals and search-snippet display fields are not modelled). -/
structure EnrichedRec where
  base : ScoredRec
  enrichment_bonus : Int
  enrichment_signals : List String
  enrichment_summary : String
  pass2_score : Int
  pass2_tier : String
deriving DecidableEq

/-- The enrichment-set body of the `enrich_companies` loop, for a company
whose extracted signal record is `signals`. -/
def enrichOne (oracle : ScoredRec → Signals) (config : Config) (c : ScoredRec) :
    Except String EnrichedRec :=
  let signals := oracle c
  match score_enrichment signals config with
  | .error e => .error e
  | .ok res =>
      .ok { base := c, enrichment_bonus := res.1, enrichment_signals := res.2,
            enrichment_summary := signals.summary,
            pass2_score := c.total_score + res.1,
            pass2_tier := assign_tier (c.total_score + res.1) config }

/-- The pass-through record built for a company outside the top-N quota. -/
def passRecord (c : ScoredRec) : EnrichedRec :=
  { base := c, enrichment_bonus := 0, enrichment_signals := [],
    enrichment_summary := "Not enriched (outside top N)",
    pass2_score := c.total_score, pass2_tier := c.tier }

/-- The ordering of the final `enriched.sort(key=lambda x: x["pass2_score"],
reverse=True)`. -/
def pass2DescOrder (a b : EnrichedRec) : Prop := b.pass2_score ≤ a.pass2_score

instance : DecidableRel pass2DescOrder := fun _ _ => Int.decLe _ _

instance : IsTotal EnrichedRec pass2DescOrder :=
  ⟨fun a b => le_total b.pass2_score a.pass2_score⟩

instance : IsTrans EnrichedRec pass2DescOrder :=
  ⟨fun _ _ _ hab hbc => le_trans hbc hab⟩

/-- `enrich_companies`: keep the non-disqualified records, sort them by
Pass-1 total descending, enrich the top `top_n` (via the external oracle),
pass the rest through with zero bonus and unchanged score and tier, and sort
the union by `pass2_score` descending. -/
def enrich_companies (oracle : ScoredRec → Signals) (pass1_results : List ScoredRec)
    (config : Config) : Except String (List EnrichedRec) :=
  let top_n := config.enrichment.top_n.getD 50
  let eligible := pass1_results.filter (fun r => !(r.tier == "Disqualified"))
  let sortedElig := List.insertionSort scoreDescOrder eligible
  let to_enrich := sortedElig.take top_n
  let skipped := sortedElig.drop top_n
  match to_enrich.mapM (enrichOne oracle config) with
  | .error e => .error e
  | .ok enriched =>
      .ok (List.insertionSort pass2DescOrder (enriched ++ skipped.map passRecord))

/-! ### Loop/`find?` characterizations -/

/-- The threshold loop returns the first tier whose `min_score` is ≤ `s`. -/
theorem tierLoop_eq_find (s : Int) : ∀ l : List TierCfg,
    tierLoop s l = (match l.find? (fun t => decide (t.min_score ≤ s)) with
                    | some t => t.name
                    | none => "Disqualified")
  | [] => rfl
  | t :: ts => by
      by_cases h : t.min_score ≤ s
      · simp [tierLoop, List.find?_cons, h]
      · simp [tierLoop, List.find?_cons, h, tierLoop_eq_find s ts]

/-- The bracket loop returns the points of the first bracket whose `max` is
at least the employee count. -/
theorem sizeLoop_eq_find (e : Int) : ∀ bs : List Bracket,
    sizeLoop e bs = (bs.find? (fun b => decide (e ≤ b.max))).map Bracket.points
  | [] => rfl
  | b :: bs => by
      by_cases h : e ≤ b.max
      · simp [sizeLoop, List.find?_cons, h]
      · simp [sizeLoop, List.find?_cons, h, sizeLoop_eq_find e bs]

/-- The industry loop returns the first listed tier containing the label,
else the configured default tier and points. -/
theorem indLoop_eq_find (industry : String) (config : Config) :
    ∀ l : List (String × IndustryTier),
      indLoop industry config l =
        (match l.find? (fun p => p.2.industries.contains industry) with
         | some p => (p.1, p.2.points)
         | none => (config.industry_tiers.default_tier.getD "C",
                    some (config.industry_tiers.default_points.getD 10)))
  | [] => rfl
  | (tname, tier) :: rest => by
      by_cases h : industry ∈ tier.industries
      · simp [indLoop, List.find?_cons, h]
      · simp [indLoop, List.find?_cons, h, indLoop_eq_find industry config rest]

/-- Claim C3: `assign_tier` returns the name of the first configured tier (in
configured order) whose `min_score` is ≤ the score, and `"Disqualified"` when
no tier qualifies; the boundary `s = min_score` is included and
`s = min_score - 1` falls past that tier. -/
theorem C3_assign_tier_first_threshold (s : Int) (config : Config) :
    (assign_tier s config =
      (match config.tiers.find? (fun t => decide (t.min_score ≤ s)) with
       | some t => t.name
       | none => "Disqualified"))
    ∧ (∀ t rest, assign_tier t.min_score { config with tiers := t :: rest } = t.name)
    ∧ (∀ t rest,
        assign_tier (t.min_score - 1) { config with tiers := t :: rest } =
          assign_tier (t.min_score - 1) { config with tiers := rest }) := by
  refine ⟨tierLoop_eq_find s config.tiers, fun t rest => ?_, fun t rest => ?_⟩
  · simp [assign_tier, tierLoop]
  · simp [assign_tier, tierLoop, show ¬(t.min_score ≤ t.min_score - 1) by omega]

/-- An empty `industry_tiers` section, for fixture configurations. -/
def noIndustryTiers : IndustryTiersCfg :=
  { A := none, B := none, C := none, OUT := none,
    default_tier := none, default_points := none }

/-- A minimal valid configuration used as the base of the concrete fixtures
below (each fixture overrides the sections it exercises). -/
def baseConfig : Config :=
  { size_scoring := { min_employees := some 10, brackets := [⟨1000, 15⟩, ⟨5000, 10⟩] },
    industry_tiers := noIndustryTiers,
    keyword_signals := { cap := none, categories := [] },
    conditional_signals := [], flags := [],
    tiers := [⟨"Hot", 40⟩, ⟨"Warm", 20⟩],
    enrichment := { bonus_cap := none, top_n := none, bonus_rules := [] } }

/-- Claim C3, instantiated at a concrete configuration and score. -/
theorem C3_witness :
    (assign_tier 40 baseConfig =
      (match baseConfig.tiers.find? (fun t => decide (t.min_score ≤ 40)) with
       | some t => t.name
       | none => "Disqualified"))
    ∧ (∀ t rest, assign_tier t.min_score { baseConfig with tiers := t :: rest } = t.name)
    ∧ (∀ t rest,
        assign_tier (t.min_score - 1) { baseConfig with tiers := t :: rest } =
          assign_tier (t.min_score - 1) { baseConfig with tiers := rest }) :=
  C3_assign_tier_first_threshold 40 baseConfig

/-- Claim C4: `score_size` disqualifies an absent count and a count below
`min_employees`; otherwise it returns the points of the first configured
bracket whose `max` is ≥ the count; and a count exceeding every bracket's
`max` is disqualified (no implicit unbounded top bracket). -/
theorem C4_score_size_brackets (employees : Option Int) (config : Config) :
    (score_size employees config =
      (match employees with
       | none => none
       | some e =>
           if e < config.size_scoring.min_employees.getD 0 then none
           else (config.size_scoring.brackets.find?
                   (fun b => decide (e ≤ b.max))).map Bracket.points))
    ∧ (∀ e, employees = some e →
        (∀ b ∈ config.size_scoring.brackets, b.max < e) →
        score_size employees config = none) := by
  constructor
  · cases employees with
    | none => rfl
    | some e =>
        by_cases h : e < config.size_scoring.min_employees.getD 0
        · simp [score_size, h]
        · simp [score_size, h, sizeLoop_eq_find]
  · rintro e rfl hall
    by_cases h : e < config.size_scoring.min_employees.getD 0
    · simp [score_size, h]
    · have hnone : config.size_scoring.brackets.find? (fun b => decide (e ≤ b.max)) = none := by
        rw [List.find?_eq_none]
        intro b hb
        simpa using not_le.2 (hall b hb)
      simp [score_size, h, sizeLoop_eq_find, hnone]

/-- Claim C4, instantiated: a count above every bracket maximum disqualifies. -/
theorem C4_witness : score_size (some 9999) baseConfig = none :=
  (C4_score_size_brackets (some 9999) baseConfig).2 9999 rfl (by decide)

/-- Claim C5: `score_industry` consults the tiers `A`, `B`, `C`, `OUT` in that
fixed order and the first tier whose industry list contains the literal label
wins, carrying that tier's (possibly absent, hence disqualifying) points; an
unmatched label falls through to the configured `default_tier` and
`default_points` (present, hence not disqualifying). -/
theorem C5_score_industry_priority (industry : String) (config : Config) :
    (score_industry industry config =
      (match (orderedIndustryTiers config).find?
               (fun p => p.2.industries.contains industry) with
       | some p => (p.1, p.2.points)
       | none => (config.industry_tiers.default_tier.getD "C",
                  some (config.industry_tiers.default_points.getD 10))))
    ∧ (∀ p, (orderedIndustryTiers config).find?
              (fun q => q.2.industries.contains industry) = some p →
          score_industry industry config = (p.1, p.2.points))
    ∧ ((orderedIndustryTiers config).find?
         (fun q => q.2.industries.contains industry) = none →
        (score_industry industry config).2 =
          some (config.industry_tiers.default_points.getD 10)) := by
  have hbase := indLoop_eq_find industry config (orderedIndustryTiers config)
  refine ⟨hbase, fun p hp => ?_, fun hnone => ?_⟩
  · rw [score_industry, hbase, hp]
  · rw [score_industry, hbase, hnone]

/-- A configuration whose `OUT` tier lists an industry but configures no
points for it. -/
def outTierConfig : Config :=
  { baseConfig with industry_tiers :=
      { A := some ⟨["Software"], some 20⟩, B := none, C := none,
        OUT := some ⟨["Tobacco"], none⟩,
        default_tier := some "C", default_points := some 10 } }

/-- Claim C5, instantiated: an `OUT` industry with absent points is
disqualifying (`points = none`). -/
theorem C5_witness :
    score_industry "Tobacco" outTierConfig = ("OUT", (none : Option Int)) :=
  (C5_score_industry_priority "Tobacco" outTierConfig).2.1
    ("OUT", ⟨["Tobacco"], none⟩) (by decide)

/-! ### C2: the rule evaluator is fail-closed except for one raising branch -/

/-- A signal record with every field at its default. -/
def defaultSignals : Signals :=
  { num_locations := none, employee_sentiment := none, hr_initiatives := false,
    decentralized := false, competitor_tools := [], summary := "" }

/-- Claim C2 is false as stated: a condition that contains
`"num_locations >= "` but is not of the recognized integer-threshold form
makes `_evaluate_rule` call `int()` on non-numeric text, which raises
`ValueError` instead of evaluating to false. -/
theorem C2_counterexample :
    evaluate_rule "num_locations >= x" defaultSignals =
      .error "ValueError: invalid literal for int" := by rfl

/-- Claim C2, amended: for every condition string that does not contain the
substring `"num_locations >= "`, evaluation returns a boolean and never
raises; and when the condition additionally matches none of the other five
recognized fragments, it returns `false` (fail-closed). -/
theorem C2_fail_closed (condition : String) (signals : Signals)
    (h : strIn "num_locations >= " condition = false) :
    (∃ b, evaluate_rule condition signals = .ok b)
    ∧ (strIn "employee_sentiment == " condition = false →
       strIn "hr_initiatives == true" condition = false →
       strIn "decentralized == true" condition = false →
       strIn "competitor_tools is empty" condition = false →
       strIn "competitor_tools is not empty" condition = false →
       evaluate_rule condition signals = .ok false) := by
  constructor
  · unfold evaluate_rule
    rw [h]
    simp only [Bool.false_eq_true, if_false]
    by_cases h2 : strIn "employee_sentiment == " condition
    · rw [if_pos h2]; exact ⟨_, rfl⟩
    · rw [if_neg h2]
      by_cases h3 : strIn "hr_initiatives == true" condition
      · rw [if_pos h3]; exact ⟨_, rfl⟩
      · rw [if_neg h3]
        by_cases h4 : strIn "decentralized == true" condition
        · rw [if_pos h4]; exact ⟨_, rfl⟩
        · rw [if_neg h4]
          by_cases h5 : strIn "competitor_tools is empty" condition
          · rw [if_pos h5]; exact ⟨_, rfl⟩
          · rw [if_neg h5]
            by_cases h6 : strIn "competitor_tools is not empty" condition
            · rw [if_pos h6]; exact ⟨_, rfl⟩
            · rw [if_neg h6]; exact ⟨false, rfl⟩
  · intro h2 h3 h4 h5 h6
    unfold evaluate_rule
    rw [h, h2, h3, h4, h5, h6]
    simp

/-- Claim C2 (amended), instantiated at a concrete unrecognized condition. -/
theorem C2_witness :
    (∃ b, evaluate_rule "revenue > 1000000" defaultSignals = .ok b)
    ∧ (strIn "employee_sentiment == " "revenue > 1000000" = false →
       strIn "hr_initiatives == true" "revenue > 1000000" = false →
       strIn "decentralized == true" "revenue > 1000000" = false →
       strIn "competitor_tools is empty" "revenue > 1000000" = false →
       strIn "competitor_tools is not empty" "revenue > 1000000" = false →
       evaluate_rule "revenue > 1000000" defaultSignals = .ok false) :=
  C2_fail_closed "revenue > 1000000" defaultSignals (by rfl)

/-! ### C7: the enrichment bonus is clamped to the cap interval -/

/-- Claim C7: whenever `score_enrichment` returns (rather than propagating an
exception from the rule evaluator), the returned bonus lies in
`[-bonus_cap, bonus_cap]`, whatever the raw sum of the matching rules'
points was.  (The configured cap is assumed non-negative, without which the
interval would be empty.) -/
theorem C7_bonus_clamped (signals : Signals) (config : Config)
    (bonus : Int) (names : List String)
    (hcap : 0 ≤ config.enrichment.bonus_cap.getD 20)
    (h : score_enrichment signals config = .ok (bonus, names)) :
    -(config.enrichment.bonus_cap.getD 20) ≤ bonus
    ∧ bonus ≤ config.enrichment.bonus_cap.getD 20 := by
  unfold score_enrichment at h
  rcases hfold : ruleFold signals config.enrichment.bonus_rules (0, []) with e | acc
  · rw [hfold] at h
    exact absurd h (by simp)
  · rw [hfold] at h
    have h' : (max (min acc.1 (config.enrichment.bonus_cap.getD 20))
        (-(config.enrichment.bonus_cap.getD 20)), acc.2) = (bonus, names) :=
      by injection h
    have hb : max (min acc.1 (config.enrichment.bonus_cap.getD 20))
        (-(config.enrichment.bonus_cap.getD 20)) = bonus := congrArg Prod.fst h'
    subst hb
    exact ⟨le_max_right _ _,
      max_le (min_le_right _ _) (neg_le_self hcap)⟩

/-- A configuration whose two bonus rules both match and sum to 35, above the
cap of 20. -/
def overCapConfig : Config :=
  { baseConfig with enrichment :=
      { bonus_cap := some 20, top_n := none,
        bonus_rules := [⟨"hr_initiatives == true", 30, "hr-transformation"⟩,
                        ⟨"num_locations >= 3", 5, "multi-site"⟩] } }

/-- A signal record making both rules of `overCapConfig` match. -/
def richSignals : Signals :=
  { num_locations := some 6, employee_sentiment := some "positive",
    hr_initiatives := true, decentralized := false, competitor_tools := [],
    summary := "" }

/-- Claim C7, instantiated: a raw sum of 35 is clamped to the cap 20. -/
theorem C7_witness :
    -(overCapConfig.enrichment.bonus_cap.getD 20) ≤ 20
    ∧ (20 : Int) ≤ overCapConfig.enrichment.bonus_cap.getD 20 :=
  C7_bonus_clamped richSignals overCapConfig 20
    ["hr-transformation", "multi-site"] (by decide) (by rfl)

/-! ### C6: algebra of the keyword scanner -/

/-- A category matches the text when at least one of its terms occurs in it. -/
def catHit (text : String) (c : Category) : Bool := termHit text c.terms

/-- The points contributed by the category pass: each matching category is
counted once, independently of how many of its terms occur. -/
def catTotal (text : String) (cats : List Category) : Int :=
  ((cats.filter (catHit text)).map Category.points).sum

/-- The names recorded by the category pass, in configured order. -/
def catNames (text : String) (cats : List Category) : List String :=
  (cats.filter (catHit text)).map Category.name

/-- Closed form of the category pass: the fold adds `catTotal` to the running
total and appends `catNames` to the matched list. -/
theorem catFold_eq (text : String) :
    ∀ (cats : List Category) (acc : Int × List String),
      cats.foldl (catStep text) acc =
        (acc.1 + catTotal text cats, acc.2 ++ catNames text cats)
  | [], acc => by simp [catTotal, catNames]
  | c :: cs, acc => by
      rw [List.foldl_cons, catFold_eq text cs]
      by_cases h : catHit text c
      · simp only [catStep, catHit] at h ⊢
        rw [if_pos h]
        simp [catTotal, catNames, catHit, List.filter_cons, h, add_assoc]
      · simp only [catStep, catHit] at h ⊢
        rw [if_neg h]
        simp [catTotal, catNames, catHit, List.filter_cons, h]

/-- The conditional-signal pass respects accumulators that agree on the total
and are permutations on the matched-name list: it produces equal totals and
permuted name lists (the names only matter through membership, in the
`exclude_if_category_matched` guard). -/
theorem condStep_congr (text industry : String) (s : CondSignal)
    (a1 a2 : Int × List String) (h1 : a1.1 = a2.1) (h2 : a1.2.Perm a2.2) :
    (condStep text industry a1 s).1 = (condStep text industry a2 s).1
    ∧ (condStep text industry a1 s).2.Perm (condStep text industry a2 s).2 := by
  unfold condStep
  cases hgate : (!(s.industry_contains.getD "").isEmpty && !industry.isEmpty &&
      strIn (s.industry_contains.getD "") industry) with
  | false => simp only [hgate, Bool.false_eq_true, if_false]; exact ⟨h1, h2⟩
  | true =>
      simp only [hgate, if_true]
      have hcont : a1.2.contains (s.exclude_if_category_matched.getD "") =
          a2.2.contains (s.exclude_if_category_matched.getD "") := by
        simp [List.contains, List.elem_eq_mem, h2.mem_iff]
      rw [hcont]
      cases hexcl : (!(s.exclude_if_category_matched.getD "").isEmpty &&
          a2.2.contains (s.exclude_if_category_matched.getD "")) with
      | true => simp only [if_true]; exact ⟨h1, h2⟩
      | false =>
          simp only [Bool.false_eq_true, if_false]
          cases hterm : termHit text s.terms with
          | false => simp only [Bool.false_eq_true, if_false]; exact ⟨h1, h2⟩
          | true =>
              simp only [if_true]
              exact ⟨by simp [h1], h2.append_right [s.name]⟩

/-- `condStep_congr`, folded over a list of conditional signals. -/
theorem condFold_congr (text industry : String) :
    ∀ (sigs : List CondSignal) (a1 a2 : Int × List String),
      a1.1 = a2.1 → a1.2.Perm a2.2 →
      (sigs.foldl (condStep text industry) a1).1 =
        (sigs.foldl (condStep text industry) a2).1
      ∧ (sigs.foldl (condStep text industry) a1).2.Perm
          (sigs.foldl (condStep text industry) a2).2
  | [], _, _, h1, h2 => ⟨h1, h2⟩
  | s :: ss, a1, a2, h1, h2 => by
      rw [List.foldl_cons, List.foldl_cons]
      obtain ⟨h1', h2'⟩ := condStep_congr text industry s a1 a2 h1 h2
      exact condFold_congr text industry ss _ _ h1' h2'

/-- A configuration holding a single industry-conditional flag with penalty
`n` and a term that matches any text (the empty string). -/
def penaltyConfig (n : Int) : Config :=
  { baseConfig with
    keyword_signals := { cap := none, categories := [] },
    flags := [{ name := "penalty-flag", terms := [""], penalty := n,
                industry_contains := some "x" }] }

/-- Claim C6: a matching category contributes its points exactly once (the
category pass equals its `catTotal`/`catNames` closed form); the capped total
is invariant under permuting the category list; the total never exceeds the
configured cap; and it has no lower bound (flag penalties can drive it
arbitrarily negative). -/
theorem C6_scan_keywords (text industry : String) (config : Config)
    (cats' : List Category)
    (hperm : cats'.Perm config.keyword_signals.categories) :
    (config.keyword_signals.categories.foldl (catStep text) (0, []) =
      (catTotal text config.keyword_signals.categories,
       catNames text config.keyword_signals.categories))
    ∧ ((scan_keywords text industry
          { config with keyword_signals :=
              { config.keyword_signals with categories := cats' } }).1 =
        (scan_keywords text industry config).1)
    ∧ (scan_keywords text industry config).1 ≤ config.keyword_signals.cap.getD 25
    ∧ (∀ B : Int, ∃ t i c, (scan_keywords t i c).1 < B) := by
  refine ⟨?_, ?_, ?_, ?_⟩
  · rw [catFold_eq]
    simp
  · unfold scan_keywords
    simp only []
    have hcatTot : catTotal text cats' =
        catTotal text config.keyword_signals.categories := by
      unfold catTotal
      exact ((hperm.filter (catHit text)).map Category.points).sum_eq
    have hcatNames : (catNames text cats').Perm
        (catNames text config.keyword_signals.categories) :=
      (hperm.filter (catHit text)).map Category.name
    rw [catFold_eq, catFold_eq]
    obtain ⟨hfst, -⟩ := condFold_congr text industry config.conditional_signals
      (0 + catTotal text cats', [] ++ catNames text cats')
      (0 + catTotal text config.keyword_signals.categories,
       [] ++ catNames text config.keyword_signals.categories)
      (by simp [hcatTot]) (by simpa using hcatNames)
    rw [hfst]
  · unfold scan_keywords
    exact min_le_right _ _
  · intro B
    refine ⟨"", "x", penaltyConfig ((B.natAbs : Int) + 1), ?_⟩
    have h1 : (scan_keywords "" "x" (penaltyConfig ((B.natAbs : Int) + 1))).1 =
        min (0 - ((B.natAbs : Int) + 1)) 25 := rfl
    rw [h1]
    have h2 := min_le_left (0 - ((B.natAbs : Int) + 1)) (25 : Int)
    omega

/-- Two categories sharing the term `"alpha"`, for the C6 witness. -/
def sharedTermConfig : Config :=
  { baseConfig with keyword_signals :=
      { cap := some 25,
        categories := [{ name := "one", terms := ["alpha"], points := 3 },
                       { name := "two", terms := ["alpha", "beta"], points := 4 }] } }

/-- Claim C6, instantiated at a two-category configuration whose categories
share a term, with the category list permuted by reversal. -/
theorem C6_witness :
    (sharedTermConfig.keyword_signals.categories.foldl (catStep "alpha text") (0, []) =
      (catTotal "alpha text" sharedTermConfig.keyword_signals.categories,
       catNames "alpha text" sharedTermConfig.keyword_signals.categories))
    ∧ ((scan_keywords "alpha text" ""
          { sharedTermConfig with keyword_signals :=
              { sharedTermConfig.keyword_signals with categories :=
                  [{ name := "two", terms := ["alpha", "beta"], points := 4 },
                   { name := "one", terms := ["alpha"], points := 3 }] } }).1 =
        (scan_keywords "alpha text" "" sharedTermConfig).1)
    ∧ (scan_keywords "alpha text" "" sharedTermConfig).1 ≤
        sharedTermConfig.keyword_signals.cap.getD 25
    ∧ (∀ B : Int, ∃ t i c, (scan_keywords t i c).1 < B) :=
  C6_scan_keywords "alpha text" "" sharedTermConfig
    [{ name := "two", terms := ["alpha", "beta"], points := 4 },
     { name := "one", terms := ["alpha"], points := 3 }]
    (by decide)

/-! ### C10: conditional signals and flags need a non-empty industry match -/

/-- With an empty industry the conditional-signal guard always fails. -/
theorem condStep_empty_industry (text : String) (acc : Int × List String)
    (s : CondSignal) : condStep text "" acc s = acc := by
  simp [condStep, show ("" : String).isEmpty = true from rfl]

/-- With an empty industry the flag guard always fails. -/
theorem flagStep_empty_industry (text : String) (acc : Int × List String)
    (f : FlagRule) : flagStep text "" acc f = acc := by
  simp [flagStep, show ("" : String).isEmpty = true from rfl]

/-- A conditional signal whose `industry_contains` is absent or empty is an
identity step: it never fires. -/
theorem condStep_empty_contains (text industry : String) (acc : Int × List String)
    (s : CondSignal) (h : (s.industry_contains.getD "").isEmpty = true) :
    condStep text industry acc s = acc := by
  simp [condStep, h]

/-- A flag whose `industry_contains` is absent or empty is an identity step. -/
theorem flagStep_empty_contains (text industry : String) (acc : Int × List String)
    (f : FlagRule) (h : (f.industry_contains.getD "").isEmpty = true) :
    flagStep text industry acc f = acc := by
  simp [flagStep, h]

/-- Folding a function over a list is unchanged by dropping the elements on
which the function is an identity step. -/
theorem foldl_filter_id {α β : Type} (p : α → Bool) (f : β → α → β)
    (h : ∀ acc x, p x = false → f acc x = acc) :
    ∀ (l : List α) (acc : β), (l.filter p).foldl f acc = l.foldl f acc
  | [], _ => rfl
  | x :: l, acc => by
      cases hp : p x with
      | true =>
          rw [List.filter_cons_of_pos hp, List.foldl_cons, List.foldl_cons]
          exact foldl_filter_id p f h l (f acc x)
      | false =>
          rw [List.filter_cons_of_neg (by simp [hp]), List.foldl_cons, h acc x hp]
          exact foldl_filter_id p f h l acc

/-- Folding an everywhere-identity step leaves the accumulator unchanged. -/
theorem foldl_id_of_fixed {α β : Type} (f : β → α → β)
    (h : ∀ acc x, f acc x = acc) :
    ∀ (l : List α) (acc : β), l.foldl f acc = acc
  | [], _ => rfl
  | x :: l, acc => by rw [List.foldl_cons, h acc x]; exact foldl_id_of_fixed f h l acc

/-- Claim C10: when the company's industry is empty, no conditional signal
and no flag fires — the scan is exactly the category pass and the flag list
is empty; and conditional signals or flags whose `industry_contains` is
absent or empty never fire — deleting them from the configuration does not
change the scan result. -/
theorem C10_industry_guards (text industry : String) (config : Config) :
    (scan_keywords text "" config =
      (min (catTotal text config.keyword_signals.categories)
           (config.keyword_signals.cap.getD 25),
       catNames text config.keyword_signals.categories, []))
    ∧ (scan_keywords text industry
        { config with
          conditional_signals := config.conditional_signals.filter
            (fun s => !(s.industry_contains.getD "").isEmpty),
          flags := config.flags.filter
            (fun f => !(f.industry_contains.getD "").isEmpty) } =
       scan_keywords text industry config) := by
  constructor
  · simp only [scan_keywords]
    rw [catFold_eq,
      foldl_id_of_fixed (condStep text "") (condStep_empty_industry text),
      foldl_id_of_fixed (flagStep text "") (flagStep_empty_industry text)]
    simp
  · simp only [scan_keywords]
    rw [foldl_filter_id (fun s => !(s.industry_contains.getD "").isEmpty)
          (condStep text industry)
          (fun acc x hx => condStep_empty_contains text industry acc x (by simpa using hx)),
        foldl_filter_id (fun f => !(f.industry_contains.getD "").isEmpty)
          (flagStep text industry)
          (fun acc x hx => flagStep_empty_contains text industry acc x (by simpa using hx))]

/-! ### C9: the Pass-1 output is a stable descending sort -/

/-- Inserting a record into a list leaves the sublist of records at any given
total unchanged, except that the inserted record (when it has that total)
lands at its front: the elements passed over on the way in all have strictly
larger totals. -/
theorem filter_orderedInsert_total (v : Int) (a : ScoredRec) :
    ∀ l : List ScoredRec,
      (List.orderedInsert scoreDescOrder a l).filter
          (fun r => decide (r.total_score = v)) =
        if a.total_score = v then
          a :: l.filter (fun r => decide (r.total_score = v))
        else l.filter (fun r => decide (r.total_score = v))
  | [] => by
      by_cases hav : a.total_score = v <;>
        simp [List.orderedInsert, List.filter_cons, hav]
  | b :: l => by
      by_cases hr : scoreDescOrder a b
      · by_cases hav : a.total_score = v <;>
          simp [List.orderedInsert, hr, List.filter_cons, hav]
      · have hlt : a.total_score < b.total_score := by
          unfold scoreDescOrder at hr
          omega
        by_cases hav : a.total_score = v
        · have hbv : ¬(b.total_score = v) := by omega
          simp [List.orderedInsert, hr, List.filter_cons, hav, hbv,
            filter_orderedInsert_total v a l]
        · by_cases hbv : b.total_score = v <;>
            simp [List.orderedInsert, hr, List.filter_cons, hav, hbv,
              filter_orderedInsert_total v a l]

/-- The stable sort leaves the sublist of records at any given total in its
original relative order. -/
theorem filter_insertionSort_total (v : Int) :
    ∀ l : List ScoredRec,
      (List.insertionSort scoreDescOrder l).filter
          (fun r => decide (r.total_score = v)) =
        l.filter (fun r => decide (r.total_score = v))
  | [] => rfl
  | a :: l => by
      simp only [List.insertionSort]
      rw [filter_orderedInsert_total v a (List.insertionSort scoreDescOrder l)]
      by_cases hav : a.total_score = v
      · rw [if_pos hav, filter_insertionSort_total v l,
          List.filter_cons, if_pos (by simp [hav])]
      · rw [if_neg hav, filter_insertionSort_total v l,
          List.filter_cons, if_neg (by simp [hav])]

/-- Claim C9: the Pass-1 output consists of exactly the scored records of all
input companies (disqualified ones included), pairwise sorted by
`total_score` descending, and for every total value `v` the records scoring
`v` appear in input order (stability) — in particular disqualified records
(total 0) sit wherever 0 falls in the descending order, not necessarily
last. -/
theorem C9_sorted_stable (companies : List Company) (config : Config) :
    (score_companies companies config).Perm (companies.map (scoreOne config))
    ∧ List.Sorted scoreDescOrder (score_companies companies config)
    ∧ ∀ v : Int,
        (score_companies companies config).filter
            (fun r => decide (r.total_score = v)) =
          (companies.map (scoreOne config)).filter
            (fun r => decide (r.total_score = v)) :=
  ⟨List.perm_insertionSort scoreDescOrder _,
   List.sorted_insertionSort scoreDescOrder _,
   fun v => filter_insertionSort_total v _⟩

/-! ### C1: the disqualification invariant -/

theorem strLength_append (s t : String) : (s ++ t).length = s.length + t.length := by
  cases s with
  | mk a =>
      cases t with
      | mk b => simp [String.length, String.append]

theorem str_ne_empty_of_length_pos (s : String) (h : 0 < s.length) : s ≠ "" := by
  intro he
  subst he
  exact absurd h (by decide)

/-- Joining a list with a separator never shortens its first element. -/
theorem joinSep_foldl_length (sep : String) :
    ∀ (xs : List String) (acc : String),
      acc.length ≤ (xs.foldl (fun a y => a ++ sep ++ y) acc).length
  | [], _ => le_refl _
  | y :: ys, acc => by
      rw [List.foldl_cons]
      refine le_trans ?_ (joinSep_foldl_length sep ys (acc ++ sep ++ y))
      rw [strLength_append, strLength_append]
      omega

/-- `"; ".join(reasons)` is non-empty whenever the first reason is. -/
theorem joinSep_ne_empty (sep x : String) (xs : List String)
    (hx : 0 < x.length) : joinSep sep (x :: xs) ≠ "" := by
  apply str_ne_empty_of_length_pos
  exact lt_of_lt_of_le hx (joinSep_foldl_length sep xs x)

theorem sizeReason_length_pos (e : Option Int) : 0 < (sizeReason e).length := by
  unfold sizeReason
  rw [strLength_append]
  have h : ("Too small (" : String).length = 11 := rfl
  omega

theorem industryReason_length_pos (i : Option String) :
    0 < (industryReason i).length := by
  unfold industryReason
  rw [strLength_append]
  have h : ("Industry excluded (" : String).length = 19 := rfl
  omega

/-- A configuration whose only tier threshold (40) lies above the totals some
qualified companies can reach. -/
def lowTierConfig : Config := { baseConfig with tiers := [⟨"A", 40⟩] }

/-- A company that passes the size and industry checks of `lowTierConfig`
(500 employees → 15 points; unmatched industry → default 10 points) but whose
total of 25 is below the only tier threshold. -/
def plainCompany : Company :=
  { name := "Acme", industry := none, employees := .num 500,
    description := none, keywords := none }

/-- Claim C1 is false as stated: a record that passes both disqualification
checks but whose total falls below every configured tier threshold gets
`tier = "Disqualified"` from `assign_tier`'s fall-through while keeping its
non-zero scores and an empty `disqualify_reason`. -/
theorem C1_counterexample :
    ¬ (∀ r ∈ score_companies [plainCompany] lowTierConfig,
        r.tier = "Disqualified" →
          r.size_score = 0 ∧ r.industry_score = 0 ∧ r.keyword_score = 0 ∧
          r.total_score = 0 ∧ r.disqualify_reason ≠ "") := by
  decide

/-- Claim C1, amended: every Pass-1 record either carries a non-empty
`disqualify_reason` together with tier `"Disqualified"` and all-zero scores
(records rejected by the size/industry checks), or carries an empty
`disqualify_reason` and `total_score = size_score + industry_score +
keyword_score` (in which case the tier may still be `"Disqualified"`, by
`assign_tier` fall-through, when the total is below every configured
threshold); and every record whose tier differs from `"Disqualified"` has an
empty `disqualify_reason`. -/
theorem C1_disqualified_invariant (companies : List Company) (config : Config)
    (r : ScoredRec) (hr : r ∈ score_companies companies config) :
    ((r.disqualify_reason ≠ "" ∧ r.tier = "Disqualified" ∧ r.size_score = 0 ∧
      r.industry_score = 0 ∧ r.keyword_score = 0 ∧ r.total_score = 0)
     ∨ (r.disqualify_reason = "" ∧
        r.total_score = r.size_score + r.industry_score + r.keyword_score))
    ∧ (r.tier ≠ "Disqualified" → r.disqualify_reason = "") := by
  simp only [score_companies, List.mem_insertionSort] at hr
  obtain ⟨c, -, rfl⟩ := List.mem_map.1 hr
  cases hsp : score_size (parse_employees c.employees) config with
  | some sp =>
      cases hip : (score_industry (c.industry.getD "") config).2 with
      | some ip =>
          simp only [scoreOne, hsp, hip]
          simp
      | none =>
          have hne := joinSep_ne_empty "; " (industryReason c.industry) []
            (industryReason_length_pos c.industry)
          simp only [scoreOne, hsp, hip]
          simp [hne]
  | none =>
      cases hip : (score_industry (c.industry.getD "") config).2 with
      | some ip =>
          have hne := joinSep_ne_empty "; " (sizeReason (parse_employees c.employees)) []
            (sizeReason_length_pos (parse_employees c.employees))
          simp only [scoreOne, hsp, hip]
          simp [hne]
      | none =>
          have hne := joinSep_ne_empty "; " (sizeReason (parse_employees c.employees))
            [industryReason c.industry]
            (sizeReason_length_pos (parse_employees c.employees))
          simp only [scoreOne, hsp, hip]
          simp [hne]

/-- A company with no employee cell, disqualified by the size check. -/
def tinyCompany : Company :=
  { name := "Tiny", industry := none, employees := .blank,
    description := none, keywords := none }

/-- Claim C1 (amended), instantiated at a company disqualified for size. -/
theorem C1_witness :
    (((scoreOne lowTierConfig tinyCompany).disqualify_reason ≠ "" ∧
      (scoreOne lowTierConfig tinyCompany).tier = "Disqualified" ∧
      (scoreOne lowTierConfig tinyCompany).size_score = 0 ∧
      (scoreOne lowTierConfig tinyCompany).industry_score = 0 ∧
      (scoreOne lowTierConfig tinyCompany).keyword_score = 0 ∧
      (scoreOne lowTierConfig tinyCompany).total_score = 0)
     ∨ ((scoreOne lowTierConfig tinyCompany).disqualify_reason = "" ∧
        (scoreOne lowTierConfig tinyCompany).total_score =
          (scoreOne lowTierConfig tinyCompany).size_score +
          (scoreOne lowTierConfig tinyCompany).industry_score +
          (scoreOne lowTierConfig tinyCompany).keyword_score))
    ∧ ((scoreOne lowTierConfig tinyCompany).tier ≠ "Disqualified" →
       (scoreOne lowTierConfig tinyCompany).disqualify_reason = "") :=
  C1_disqualified_invariant [tinyCompany] lowTierConfig
    (scoreOne lowTierConfig tinyCompany) (by decide)

/-! ### C8: companies outside the enrichment quota pass through unchanged -/

/-- Claim C8: when `enrich_companies` returns, every eligible record that
falls outside the top-N quota (the part of the eligible list, sorted by
Pass-1 total descending, after the first `top_n` entries) appears in the
output with `enrichment_bonus = 0`, `pass2_score` equal to its Pass-1
`total_score`, and `pass2_tier` equal to its Pass-1 `tier`. -/
theorem C8_passthrough_unchanged (oracle : ScoredRec → Signals)
    (pass1 : List ScoredRec) (config : Config) (out : List EnrichedRec)
    (c : ScoredRec)
    (hout : enrich_companies oracle pass1 config = .ok out)
    (hc : c ∈ (List.insertionSort scoreDescOrder
            (pass1.filter (fun r => !(r.tier == "Disqualified")))).drop
          (config.enrichment.top_n.getD 50)) :
    ∃ r, r ∈ out ∧ r.base = c ∧ r.enrichment_bonus = 0 ∧
      r.pass2_score = c.total_score ∧ r.pass2_tier = c.tier := by
  simp only [enrich_companies] at hout
  rcases hm : ((List.insertionSort scoreDescOrder
      (pass1.filter (fun r => !(r.tier == "Disqualified")))).take
        (config.enrichment.top_n.getD 50)).mapM (enrichOne oracle config)
    with e | enr
  · rw [hm] at hout
    exact absurd hout (by simp)
  · rw [hm] at hout
    have hout' := Except.ok.inj hout
    subst hout'
    refine ⟨passRecord c, ?_, rfl, rfl, rfl, rfl⟩
    rw [List.mem_insertionSort]
    exact List.mem_append_right enr (List.mem_map_of_mem passRecord hc)

/-- A configuration with a zero enrichment quota: everything passes through. -/
def quotaZeroConfig : Config :=
  { baseConfig with enrichment :=
      { bonus_cap := some 20, top_n := some 0, bonus_rules := [] } }

/-- A non-disqualified Pass-1 record for the C8 witness. -/
def warmRec : ScoredRec :=
  { company := plainCompany, employees_num := some 500, size_score := 15,
    industry_tier := "C", industry_score := 10, keyword_score := 0,
    keyword_signals := [], flags := [], total_score := 25, tier := "Warm",
    disqualify_reason := "" }

/-- Claim C8, instantiated with a zero quota: the only record passes through
with zero bonus and unchanged score and tier. -/
theorem C8_witness :
    ∃ r, r ∈ [passRecord warmRec] ∧ r.base = warmRec ∧
      r.enrichment_bonus = 0 ∧ r.pass2_score = warmRec.total_score ∧
      r.pass2_tier = warmRec.tier :=
  C8_passthrough_unchanged (fun _ => defaultSignals) [warmRec] quotaZeroConfig
    [passRecord warmRec] warmRec (by rfl) (by decide)

end LeadEngine
